import Mathlib

/-!
Verification of the sqlx example repository (`src/main.go`).

The Go program demonstrates schema creation, bulk insert, filtered select,
join mapping, and grouping of flat LEFT JOIN rows into a nested
users-to-posts mapping.  The pure, repository-owned logic (the two grouping
pipelines inside `SelectUserPosts`) is embedded directly from the source.
The storage layer (SQLite and the sqlx/lo libraries) lives outside the
repository; where a claim depends on it, it is modelled from the
specification, and each such definition says so in its doc comment.
`log.Fatalln` terminates the process, so a fallible call is embedded as an
`Except` value and termination as error propagation: once a stage fails,
nothing later in the embedded control flow runs.
-/

/-- `User` struct from `src/main.go` (lines 13-16): integer identity and
display name. -/
structure User where
  ID : Nat
  Name : String
deriving DecidableEq, Repr

/-- `Post` struct from `src/main.go` (lines 18-22): integer identity, owning
user identity, text content. -/
structure Post where
  ID : Nat
  UserID : Nat
  Content : String
deriving DecidableEq, Repr

/-- Struct `T` local to `SelectUserPosts` (lines 150-154): one flat LEFT JOIN
row.  `user_id` is always present; `post_id` and `content` are nullable
(`sql.Null` in the source), embedded as `Option`. -/
structure FlatRow where
  user_id : Nat
  post_id : Option Nat
  content : Option String
deriving DecidableEq, Repr

/-- A Go `map[K]V` observed through lookup: `none` means the key is absent. -/
abbrev GoMap (K V : Type) := K → Option V

namespace lo

/-- Modelled from the spec glossary: "Group-by: partitioning a sequence into a
mapping from a derived key to the ordered sub-sequence of elements sharing
that key."  Embeds `lo.GroupBy` as used at lines 167 and 202: a key is present
iff some element maps to it, and its bucket is the ordered sub-sequence of
elements with that key. -/
def GroupBy {α K : Type} [DecidableEq K] (l : List α) (f : α → K) : GoMap K (List α) :=
  fun k =>
    if l.any (fun a => decide (f a = k)) then some (l.filter (fun a => decide (f a = k)))
    else none

/-- Embeds `lo.MapValues` (line 170): apply a function to every value of the
map, keeping the key set. -/
def MapValues {K V W : Type} (m : GoMap K V) (f : V → K → W) : GoMap K W :=
  fun k => (m k).map (fun v => f v k)

/-- Index-carrying worker for `FilterMap` below. -/
def FilterMapFrom {α β : Type} (f : α → Nat → β × Bool) : List α → Nat → List β
  | [], _ => []
  | a :: as, i =>
      if (f a i).2 then (f a i).1 :: FilterMapFrom f as (i + 1)
      else FilterMapFrom f as (i + 1)

/-- Modelled from the spec glossary: "Filter-map: a single pass that both
discards non-matching elements and transforms matching ones."  Embeds
`lo.FilterMap` (lines 171 and 191): the callback receives the element and its
index and returns the transformed element together with a keep flag. -/
def FilterMap {α β : Type} (l : List α) (f : α → Nat → β × Bool) : List β :=
  FilterMapFrom f l 0

end lo

namespace SelectUserPosts

/-- The callback body shared verbatim by both `lo.FilterMap` calls in
`SelectUserPosts` (lines 171-180 and 191-200): a row yields a `Post` exactly
when its optional post identity is valid; otherwise the zero `Post` is
returned together with `false`.  Accessing `Content.V` on an invalid
`sql.Null` yields the Go zero value, embedded as `Option.getD ""`. -/
def toPost (v : FlatRow) : Post × Bool :=
  match v.post_id with
  | none => (⟨0, 0, ""⟩, false)
  | some pid => (⟨pid, v.user_id, v.content.getD ""⟩, true)

/-- First block of `SelectUserPosts` (lines 166-184): group the unfiltered
flat rows by `user_id`, then filter-map each bucket to its posts. -/
def groupThenFilter (flatResult : List FlatRow) : GoMap Nat (List Post) :=
  let grouped := lo.GroupBy flatResult (fun v => v.user_id)
  lo.MapValues grouped (fun value _ => lo.FilterMap value (fun v _ => toPost v))

/-- Second block of `SelectUserPosts` (lines 187-206): filter-map the flat
rows to posts first, then group the posts by `UserID`. -/
def filterThenGroup (flatResult : List FlatRow) : GoMap Nat (List Post) :=
  let mapped := lo.FilterMap flatResult (fun item _ => toPost item)
  lo.GroupBy mapped (fun p => p.UserID)

/-- Option-valued restatement of `toPost`, convenient for proofs. -/
def rowPost (v : FlatRow) : Option Post :=
  v.post_id.map (fun pid => ⟨pid, v.user_id, v.content.getD ""⟩)

/-- Remove the keys whose bucket is the empty list from a Go map of lists. -/
def dropEmpty {K V : Type} (m : GoMap K (List V)) : GoMap K (List V) :=
  fun k =>
    match m k with
    | none => none
    | some [] => none
    | some (v :: vs) => some (v :: vs)

end SelectUserPosts

/-- Storage errors surfaced by the driver; in the source every one of them is
passed to `log.Fatalln`. -/
inductive DBError where
  | connectionFailed
  | ddlFailed
  | foreignKeyViolation
  | queryFailed
deriving DecidableEq, Repr

/-- Modelled from the spec (§3, §6): the database file state — the `users`
and `posts` tables in storage order together with their AUTOINCREMENT
counters. -/
structure DBState where
  users : List User
  posts : List Post
  nextUserId : Nat
  nextPostId : Nat
deriving DecidableEq, Repr

/-- The freshly created schema: both tables empty, identities starting at 1. -/
def emptyDB : DBState := ⟨[], [], 1, 1⟩

/-- Modelled from the spec: applying one bound user row; the identity is
generated by storage (AUTOINCREMENT), the bound parameter is `:name`. -/
def addUser (st : DBState) (u : User) : DBState :=
  ⟨st.users ++ [⟨st.nextUserId, u.Name⟩], st.posts, st.nextUserId + 1, st.nextPostId⟩

/-- Modelled from the spec: applying one bound post row; the identity is
generated by storage, the bound parameters are `:user_id` and `:content`. -/
def addPost (st : DBState) (p : Post) : DBState :=
  ⟨st.users, st.posts ++ [⟨st.nextPostId, p.UserID, p.Content⟩],
    st.nextUserId, st.nextPostId + 1⟩

/-- Modelled from the spec: the batched `INSERT INTO users` issued by
`db.NamedExec` at line 74 — all rows applied in order, rows-affected equal to
the number of bound rows; a user row violates no constraint. -/
def insertUsersModel (us : List User) (st : DBState) : Except DBError (DBState × Nat) :=
  .ok (us.foldl addUser st, us.length)

/-- Modelled from the spec (§3): row-by-row application of a posts batch,
checking the referential constraint `user_id REFERENCES users(id)` on each
row. -/
def insertPostsRows : List Post → DBState → Except DBError DBState
  | [], st => .ok st
  | p :: ps, st =>
      if st.users.any (fun u => decide (u.ID = p.UserID)) then
        insertPostsRows ps (addPost st p)
      else .error .foreignKeyViolation

/-- Modelled from the spec (§8): the batched `INSERT INTO posts` issued by
`db.NamedExec` at line 87 — a single statement, atomic: on a constraint
violation the statement fails and no row of the batch is applied. -/
def insertPostsModel (ps : List Post) (st : DBState) : Except DBError (DBState × Nat) :=
  match insertPostsRows ps st with
  | .ok st2 => .ok (st2, ps.length)
  | .error e => .error e

/-- Modelled from the spec (§8): the database state observable after a
batched statement — the new state on success, and the unchanged prior state
on failure (the failed statement applies no row). -/
def execResultState (st : DBState) (r : Except DBError (DBState × Nat)) : DBState :=
  match r with
  | .ok v => v.1
  | .error _ => st

/-- Modelled from the spec: `SELECT * FROM users` returns the rows in storage
order. -/
def selectUsersModel (st : DBState) : List User := st.users

/-- Modelled from the spec (§4.3, §8): select the users whose identity is a
member of the given set via a parameterized IN clause (`sqlx.In` plus
`Rebind`, both external to the repository).  Rows come back in storage order;
an empty identity set is not a SQL syntax error and yields no rows. -/
def selectInModel (ids : List Nat) (st : DBState) : Except DBError (List User) :=
  .ok (st.users.filter (fun u => ids.any (fun i => decide (i = u.ID))))

/-- Modelled from the spec (§4.4): `INNER JOIN posts ON users.id =
posts.user_id` — each user row pairs with each of its matching post rows; the
pair's `User` fields come from the aliased `user.id` / `user.name` columns and
its `Post` fields from the `posts.*` columns. -/
def innerJoin (users : List User) (posts : List Post) : List (User × Post) :=
  users.flatMap (fun u =>
    (posts.filter (fun p => decide (p.UserID = u.ID))).map (fun p => (u, p)))

/-- Modelled from the spec (§4.5): the rows a user contributes to the LEFT
JOIN — its matching post rows, or a single row with NULL post columns when it
has none. -/
def userRows (posts : List Post) (u : User) : List FlatRow :=
  let ps := posts.filter (fun p => decide (p.UserID = u.ID))
  if ps.isEmpty then [⟨u.ID, none, none⟩]
  else ps.map (fun p => ⟨u.ID, some p.ID, some p.Content⟩)

/-- Modelled from the spec (§4.5): `LEFT JOIN posts ON users.id =
posts.user_id` with users the "one" side. -/
def leftJoin (users : List User) (posts : List Post) : List FlatRow :=
  users.flatMap (userRows posts)

/-- The storage operations the program invokes, each fallible.  The program
functions below are parameterized over them so that error propagation is
proved for every storage behavior, and instantiated with the spec-modelled
behavior `specEnv` for the concrete-data claims. -/
structure Env where
  connect : Except DBError DBState
  execSchema : DBState → Except DBError DBState
  namedExecUsers : List User → DBState → Except DBError (DBState × Nat)
  namedExecPosts : List Post → DBState → Except DBError (DBState × Nat)
  queryUsers : DBState → Except DBError (List User)
  queryUsersIn : List Nat → DBState → Except DBError (List User)
  queryJoin : DBState → Except DBError (List (User × Post))
  queryLeftJoin : DBState → Except DBError (List FlatRow)

/-- `InitDB` (lines 35-66): connect, then execute the schema DDL; either
failure reaches `log.Fatalln`, embedded as error propagation. -/
def InitDB (env : Env) : Except DBError DBState := do
  let db ← env.connect
  let db2 ← env.execSchema db
  return db2

/-- The `users` slice bound by `BulkInsert` (lines 69-73); identities are the
Go zero value, generated by storage on insert. -/
def bulkUsers : List User := [⟨0, "Alice"⟩, ⟨0, "Bob"⟩, ⟨0, "Charlie"⟩]

/-- The `posts` slice bound by `BulkInsert` (lines 82-86): Alice has two
posts, Bob one, Charlie none. -/
def bulkPosts : List Post :=
  [⟨0, 1, "Hello, Alice"⟩, ⟨0, 1, "Nice to meet you"⟩, ⟨0, 2, "Hello, Bob"⟩]

/-- `BulkInsert` (lines 68-93): one batched statement for all users, then —
only if that succeeded — one batched statement for all posts; returns the two
rows-affected counts that the source logs.  Each `err != nil` branch calls
`log.Fatalln`, embedded as error propagation. -/
def BulkInsert (env : Env) (db : DBState) : Except DBError (DBState × Nat × Nat) := do
  let r1 ← env.namedExecUsers bulkUsers db
  let r2 ← env.namedExecPosts bulkPosts r1.1
  return (r2.1, r1.2, r2.2)

/-- `SelectUsers` (lines 95-104): `SELECT * FROM users`, fatal on error. -/
def SelectUsers (env : Env) (db : DBState) : Except DBError (List User) :=
  env.queryUsers db

/-- `InQuery` with its identity set as a parameter (line 107 fixes it to
`[1, 2]`): `SELECT * FROM users WHERE id IN (?)` expanded by `sqlx.In`,
fatal on error. -/
def InQueryWith (env : Env) (userIDs : List Nat) (db : DBState) :
    Except DBError (List User) :=
  env.queryUsersIn userIDs db

/-- `InQuery` (lines 106-118) exactly as in the source: the set is `[1, 2]`. -/
def InQuery (env : Env) (db : DBState) : Except DBError (List User) :=
  InQueryWith env [1, 2] db

/-- `JoinQuery` (lines 120-146): the INNER JOIN select, fatal on error. -/
def JoinQuery (env : Env) (db : DBState) : Except DBError (List (User × Post)) :=
  env.queryJoin db

/-- `SelectUserPosts` (lines 148-207): fetch the flat LEFT JOIN rows (fatal on
error), then build both groupings from them. -/
def SelectUserPostsRun (env : Env) (db : DBState) :
    Except DBError (GoMap Nat (List Post) × GoMap Nat (List Post)) := do
  let flatResult ← env.queryLeftJoin db
  return (SelectUserPosts.groupThenFilter flatResult,
    SelectUserPosts.filterThenGroup flatResult)

/-- `main` (lines 24-33): the strictly sequential demonstration run. -/
def mainRun (env : Env) :
    Except DBError
      (List User × List User × List (User × Post) ×
        (GoMap Nat (List Post) × GoMap Nat (List Post))) := do
  let db ← InitDB env
  let r ← BulkInsert env db
  let us ← SelectUsers env r.1
  let usIn ← InQuery env r.1
  let joined ← JoinQuery env r.1
  let up ← SelectUserPostsRun env r.1
  return (us, usIn, joined, up)

/-- The spec-modelled storage behavior: a fresh file, the schema reset by the
DDL, and the query semantics of §4 and §6. -/
def specEnv : Env where
  connect := .ok emptyDB
  execSchema := fun _ => .ok emptyDB
  namedExecUsers := insertUsersModel
  namedExecPosts := insertPostsModel
  queryUsers := fun st => .ok (selectUsersModel st)
  queryUsersIn := selectInModel
  queryJoin := fun st => .ok (innerJoin st.users st.posts)
  queryLeftJoin := fun st => .ok (leftJoin st.users st.posts)

/-- The database state after `InitDB` and `BulkInsert` on the demonstration
data. -/
def demoDB : DBState :=
  ⟨[⟨1, "Alice"⟩, ⟨2, "Bob"⟩, ⟨3, "Charlie"⟩],
    [⟨1, 1, "Hello, Alice"⟩, ⟨2, 1, "Nice to meet you"⟩, ⟨3, 2, "Hello, Bob"⟩],
    4, 4⟩

namespace SelectUserPosts

/-- `rowPost` packages exactly the keep-flag convention of `toPost`. -/
lemma toPost_keep (v : FlatRow) :
    (if (toPost v).2 then some (toPost v).1 else none) = rowPost v := by
  cases h : v.post_id <;> simp [toPost, rowPost, h]

/-- Both `lo.FilterMap` calls of `SelectUserPosts` ignore the index, so they
agree with `List.filterMap rowPost` from any starting index. -/
lemma FilterMapFrom_toPost (l : List FlatRow) (i : Nat) :
    lo.FilterMapFrom (fun v _ => toPost v) l i = l.filterMap rowPost := by
  induction l generalizing i with
  | nil => simp [lo.FilterMapFrom]
  | cons a as ih =>
      cases h : a.post_id with
      | none =>
          have h2 : toPost a = (⟨0, 0, ""⟩, false) := by simp [toPost, h]
          simp [lo.FilterMapFrom, h2, ih, List.filterMap_cons, rowPost, h]
      | some pid =>
          have h2 : toPost a = (⟨pid, a.user_id, a.content.getD ""⟩, true) := by
            simp [toPost, h]
          simp [lo.FilterMapFrom, h2, ih, List.filterMap_cons, rowPost, h]

lemma FilterMap_toPost (l : List FlatRow) :
    lo.FilterMap l (fun v _ => toPost v) = l.filterMap rowPost :=
  FilterMapFrom_toPost l 0

/-- A post produced from a flat row carries that row's user identity. -/
lemma rowPost_userid {v : FlatRow} {p : Post} (h : rowPost v = some p) :
    p.UserID = v.user_id := by
  cases hv : v.post_id <;> simp [rowPost, hv] at h
  exact h.symm ▸ rfl

/-- Filtering the mapped posts along the grouping key is the same as mapping
the rows already filtered along the grouping key. -/
lemma filter_filterMap (rows : List FlatRow) (k : Nat) :
    (rows.filterMap rowPost).filter (fun p => decide (p.UserID = k)) =
      (rows.filter (fun v => decide (v.user_id = k))).filterMap rowPost := by
  induction rows with
  | nil => rfl
  | cons r rs ih =>
      cases h : r.post_id with
      | none =>
          by_cases hk : r.user_id = k <;>
            simp [rowPost, h, hk, List.filter_cons, List.filterMap_cons, ih]
      | some pid =>
          by_cases hk : r.user_id = k <;>
            simp [rowPost, h, hk, List.filter_cons, List.filterMap_cons, ih]

/-- C1 counterexample: on the single flat row of a user (identity 3) with no
post, the filter-then-group block of `SelectUserPosts` omits key 3 while the
group-then-filter block maps key 3 to the empty list, so the two orderings do
not produce the same final mapping on every input sequence. -/
theorem c1_orderings_differ :
    filterThenGroup [⟨3, none, none⟩] ≠ groupThenFilter [⟨3, none, none⟩] :=
  fun h => absurd (congrFun h 3) (by decide)

/-- C1 (amended): for every sequence of flat left-join rows, filter-then-group
equals group-then-filter with the empty buckets removed; the two orderings of
`SelectUserPosts` agree at every key holding at least one post and differ
exactly at the keys of users all of whose rows lack a post, which
group-then-filter maps to the empty list and filter-then-group omits. -/
theorem c1_filterThenGroup_eq_dropEmpty_groupThenFilter (rows : List FlatRow) :
    filterThenGroup rows = dropEmpty (groupThenFilter rows) := by
  funext k
  simp only [filterThenGroup, groupThenFilter, lo.MapValues, lo.GroupBy,
    FilterMap_toPost, dropEmpty]
  by_cases hA : rows.any (fun v => decide (v.user_id = k)) = true
  · have key := filter_filterMap rows k
    rcases hF : (rows.filter (fun v => decide (v.user_id = k))).filterMap rowPost
      with _ | ⟨p, ps⟩
    · have h2 : (rows.filterMap rowPost).any (fun q => decide (q.UserID = k)) = false := by
        rw [List.any_eq_false]
        intro q hq hqk
        have hq2 : q ∈ (rows.filterMap rowPost).filter (fun p => decide (p.UserID = k)) :=
          List.mem_filter.mpr ⟨hq, hqk⟩
        rw [key, hF] at hq2
        exact absurd hq2 (List.not_mem_nil q)
      simp [hA, h2, hF]
    · have h2 : (rows.filterMap rowPost).any (fun q => decide (q.UserID = k)) = true := by
        have hp : p ∈ (rows.filterMap rowPost).filter (fun q => decide (q.UserID = k)) := by
          rw [key, hF]
          exact List.mem_cons_self p ps
        obtain ⟨hp1, hp2⟩ := List.mem_filter.mp hp
        exact List.any_eq_true.mpr ⟨p, hp1, hp2⟩
      simp [hA, h2, key, hF]
  · have h1 : ∀ v ∈ rows, ¬ v.user_id = k := by simpa [List.any_eq_true] using hA
    have h2 : (rows.filterMap rowPost).any (fun p => decide (p.UserID = k)) = false := by
      rw [List.any_eq_false]
      intro p hp
      obtain ⟨v, hv, hpv⟩ := List.mem_filterMap.mp hp
      simpa [rowPost_userid hpv] using h1 v hv
    simp [hA, h2]

end SelectUserPosts

namespace SelectUserPosts

/-- A key is present in the group-then-filter mapping exactly when some flat
row carries it. -/
lemma groupThenFilter_isSome (rows : List FlatRow) (k : Nat) :
    (groupThenFilter rows k).isSome = rows.any (fun v => decide (v.user_id = k)) := by
  simp only [groupThenFilter, lo.MapValues, lo.GroupBy]
  by_cases hA : rows.any (fun v => decide (v.user_id = k)) = true <;> simp [hA]

/-- Every row a user contributes to the LEFT JOIN carries that user's
identity. -/
lemma userRows_userid {posts : List Post} {u : User} :
    ∀ r ∈ userRows posts u, r.user_id = u.ID := by
  intro r hr
  simp only [userRows] at hr
  by_cases h : (posts.filter (fun p => decide (p.UserID = u.ID))).isEmpty <;>
    simp [h] at hr
  · simp [hr]
  · obtain ⟨p, _, hp⟩ := hr
    simp [← hp]

/-- Every user contributes at least one row to the LEFT JOIN. -/
lemma userRows_ne_nil {posts : List Post} {u : User} : userRows posts u ≠ [] := by
  simp only [userRows]
  by_cases h : (posts.filter (fun p => decide (p.UserID = u.ID))).isEmpty <;>
    simp [h]
  simpa [List.isEmpty_iff] using h

/-- The user identities occurring in the LEFT JOIN rows are exactly the
identities of the users table. -/
lemma mem_map_userid_leftJoin (users : List User) (posts : List Post) (k : Nat) :
    k ∈ (leftJoin users posts).map FlatRow.user_id ↔ k ∈ users.map User.ID := by
  induction users with
  | nil => simp [leftJoin]
  | cons u us ih =>
      simp only [leftJoin] at ih ⊢
      simp only [List.flatMap_cons, List.map_append, List.mem_append,
        List.map_cons, List.mem_cons]
      constructor
      · rintro (h | h)
        · obtain ⟨r, hr, hrk⟩ := List.mem_map.mp h
          exact Or.inl (hrk ▸ userRows_userid r hr)
        · exact Or.inr (ih.mp h)
      · rintro (h | h)
        · obtain ⟨r, hr⟩ := List.exists_mem_of_ne_nil _ userRows_ne_nil
          exact Or.inl (List.mem_map.mpr ⟨r, hr, h ▸ userRows_userid r hr⟩)
        · exact Or.inr (ih.mpr h)

/-- C9: the key set of the group-then-filter mapping is exactly the set of
user identities occurring in the flat rows; for rows produced by the LEFT
JOIN it is exactly the key set of the users table, including users with no
posts. -/
theorem c9_groupThenFilter_keys :
    (∀ (rows : List FlatRow) (k : Nat),
        (groupThenFilter rows k).isSome ↔ k ∈ rows.map FlatRow.user_id) ∧
    (∀ (users : List User) (posts : List Post) (k : Nat),
        (groupThenFilter (leftJoin users posts) k).isSome ↔ k ∈ users.map User.ID) := by
  have base : ∀ (rows : List FlatRow) (k : Nat),
      (groupThenFilter rows k).isSome ↔ k ∈ rows.map FlatRow.user_id := by
    intro rows k
    have h2 := groupThenFilter_isSome rows k
    constructor
    · intro h
      rw [h2] at h
      obtain ⟨v, hv, hvk⟩ := List.any_eq_true.mp h
      exact List.mem_map.mpr ⟨v, hv, of_decide_eq_true hvk⟩
    · intro h
      rw [h2]
      obtain ⟨v, hv, hvk⟩ := List.mem_map.mp h
      exact List.any_eq_true.mpr ⟨v, hv, decide_eq_true hvk⟩
  exact ⟨base, fun users posts k => (base _ k).trans (mem_map_userid_leftJoin users posts k)⟩

/-- C9 witness: the demonstration LEFT JOIN mapping has a key for Charlie
(identity 3) even though Charlie has no posts. -/
theorem c9_groupThenFilter_keys_witness :
    (groupThenFilter (leftJoin demoDB.users demoDB.posts) 3).isSome :=
  (c9_groupThenFilter_keys.2 demoDB.users demoDB.posts 3).mpr (by decide)

/-- C10: in both grouping variants of `SelectUserPosts`, every post in the
bucket of key `k` carries owning-user identity `k`, and the bucket is a
sublist of the posts in flat-row order (relative order preserved). -/
theorem c10_bucket_userid_order (rows : List FlatRow) (k : Nat) (l : List Post)
    (h : groupThenFilter rows k = some l ∨ filterThenGroup rows k = some l) :
    (∀ p ∈ l, p.UserID = k) ∧ l.Sublist (rows.filterMap rowPost) := by
  have hl : l = (rows.filterMap rowPost).filter (fun p => decide (p.UserID = k)) := by
    rcases h with h | h
    · simp only [groupThenFilter, lo.MapValues, lo.GroupBy, FilterMap_toPost] at h
      by_cases hA : rows.any (fun v => decide (v.user_id = k)) = true
      · simp only [hA, if_true, Option.map_some] at h
        rw [← Option.some_inj.mp h, filter_filterMap]
      · simp [hA] at h
    · simp only [filterThenGroup, lo.GroupBy, FilterMap_toPost] at h
      by_cases hA : (rows.filterMap rowPost).any (fun p => decide (p.UserID = k)) = true
      · simp only [hA, if_true] at h
        exact (Option.some_inj.mp h).symm
      · simp [hA] at h
  subst hl
  refine ⟨fun p hp => ?_, List.filter_sublist _⟩
  simpa using (List.mem_filter.mp hp).2

/-- C10 witness: in the demonstration data, the bucket of key 1 holds Alice's
two posts, both owned by user 1 and in flat-row order. -/
theorem c10_bucket_userid_order_witness :
    (∀ p ∈ [Post.mk 1 1 "Hello, Alice", Post.mk 2 1 "Nice to meet you"], p.UserID = 1) ∧
      List.Sublist [Post.mk 1 1 "Hello, Alice", Post.mk 2 1 "Nice to meet you"]
        ((leftJoin demoDB.users demoDB.posts).filterMap rowPost) :=
  c10_bucket_userid_order (leftJoin demoDB.users demoDB.posts) 1
    [Post.mk 1 1 "Hello, Alice", Post.mk 2 1 "Nice to meet you"] (Or.inl (by decide))

end SelectUserPosts

namespace SelectUserPosts

/-- C2: on the demonstration data, the filter-then-group block yields exactly
the mapping sending 1 to Alice's two posts and 2 to Bob's post, with no key
for Charlie (identity 3), while the group-then-filter block yields the same
buckets for 1 and 2 plus key 3 mapped to the empty list. -/
theorem c2_demo_groupings :
    filterThenGroup (leftJoin demoDB.users demoDB.posts) =
      (fun k =>
        if k = 1 then some [⟨1, 1, "Hello, Alice"⟩, ⟨2, 1, "Nice to meet you"⟩]
        else if k = 2 then some [⟨3, 2, "Hello, Bob"⟩]
        else none) ∧
    groupThenFilter (leftJoin demoDB.users demoDB.posts) =
      (fun k =>
        if k = 1 then some [⟨1, 1, "Hello, Alice"⟩, ⟨2, 1, "Nice to meet you"⟩]
        else if k = 2 then some [⟨3, 2, "Hello, Bob"⟩]
        else if k = 3 then some []
        else none) := by
  have hrows : leftJoin demoDB.users demoDB.posts =
      [⟨1, some 1, some "Hello, Alice"⟩, ⟨1, some 2, some "Nice to meet you"⟩,
        ⟨2, some 3, some "Hello, Bob"⟩, ⟨3, none, none⟩] := by decide
  constructor
  · funext k
    rw [hrows]
    by_cases h1 : k = 1
    · subst h1; decide
    by_cases h2 : k = 2
    · subst h2; decide
    simp [filterThenGroup, lo.GroupBy, lo.FilterMap, lo.FilterMapFrom, toPost,
      Ne.symm h1, Ne.symm h2, h1, h2]
  · funext k
    rw [hrows]
    by_cases h1 : k = 1
    · subst h1; decide
    by_cases h2 : k = 2
    · subst h2; decide
    by_cases h3 : k = 3
    · subst h3; decide
    simp [groupThenFilter, lo.GroupBy, lo.MapValues, lo.FilterMap, lo.FilterMapFrom,
      toPost, Ne.symm h1, Ne.symm h2, Ne.symm h3, h1, h2, h3]

end SelectUserPosts

/-- C3: every stage of every operation propagates a storage error as the
run's outcome — `log.Fatalln` terminates the process, embedded as the error
being the final result, with nothing after the failing stage executing — and
a successful `BulkInsert` implies both batches fully succeeded with exactly
the reported rows-affected counts, so no failed batch or query yields a
subset of applied or decoded rows without explicit indication of failure. -/
theorem c3_fatal_error_propagation (env : Env) (st : DBState) (e : DBError) :
    (env.connect = .error e → mainRun env = .error e) ∧
    (∀ db, env.connect = .ok db → env.execSchema db = .error e →
      mainRun env = .error e) ∧
    (env.namedExecUsers bulkUsers st = .error e → BulkInsert env st = .error e) ∧
    (∀ st1 n, env.namedExecUsers bulkUsers st = .ok (st1, n) →
      env.namedExecPosts bulkPosts st1 = .error e → BulkInsert env st = .error e) ∧
    (env.queryUsers st = .error e → SelectUsers env st = .error e) ∧
    (env.queryUsersIn [1, 2] st = .error e → InQuery env st = .error e) ∧
    (env.queryJoin st = .error e → JoinQuery env st = .error e) ∧
    (env.queryLeftJoin st = .error e → SelectUserPostsRun env st = .error e) ∧
    (∀ r, BulkInsert env st = .ok r →
      ∃ st1, env.namedExecUsers bulkUsers st = .ok (st1, r.2.1) ∧
        env.namedExecPosts bulkPosts st1 = .ok (r.1, r.2.2)) := by
  refine ⟨?_, ?_, ?_, ?_, ?_, ?_, ?_, ?_, ?_⟩
  · intro h
    simp [mainRun, InitDB, h, Bind.bind, Except.bind]
  · intro db h1 h2
    simp [mainRun, InitDB, h1, h2, Bind.bind, Except.bind]
  · intro h
    simp [BulkInsert, h, Bind.bind, Except.bind]
  · intro st1 n h1 h2
    simp [BulkInsert, h1, h2, Bind.bind, Except.bind]
  · intro h
    simp [SelectUsers, h]
  · intro h
    simp [InQuery, InQueryWith, h]
  · intro h
    simp [JoinQuery, h]
  · intro h
    simp [SelectUserPostsRun, h, Bind.bind, Except.bind]
  · intro r h
    cases hu : env.namedExecUsers bulkUsers st with
    | error e2 => simp [BulkInsert, Bind.bind, Except.bind, hu] at h
    | ok v =>
        cases hp : env.namedExecPosts bulkPosts v.1 with
        | error e2 => simp [BulkInsert, Bind.bind, Except.bind, hu, hp] at h
        | ok w =>
            simp only [BulkInsert, Bind.bind, Except.bind, hu, hp] at h
            obtain rfl : (w.1, v.2, w.2) = r := by simpa [pure, Except.pure] using h
            refine ⟨v.1, ?_, ?_⟩
            · simp [hu]
            · simp [hp]

/-- C3 witness: with a storage behavior whose connection step fails, the whole
demonstration run terminates with exactly that error. -/
theorem c3_fatal_error_propagation_witness :
    mainRun { specEnv with connect := .error .connectionFailed } =
      .error .connectionFailed :=
  (c3_fatal_error_propagation
    { specEnv with connect := .error .connectionFailed } emptyDB .connectionFailed).1 rfl

/-- C4: the select-by-identity-set operation applied to the empty identity
set is not an error — in particular not a SQL syntax error — and returns the
empty sequence of users, on every database state. -/
theorem c4_inquery_empty_set (st : DBState) :
    InQueryWith specEnv [] st = .ok [] := by
  simp [InQueryWith, specEnv, selectInModel]

/-- C4 witness: the empty identity set on the demonstration store yields the
empty sequence without error. -/
theorem c4_inquery_empty_set_witness : InQueryWith specEnv [] demoDB = .ok [] :=
  c4_inquery_empty_set demoDB

/-- Every posts batch containing a row whose owning-user identity matches no
stored user fails the referential check. -/
lemma insertPostsRows_dangling (p : Post) :
    ∀ (ps : List Post) (st : DBState), p ∈ ps → (∀ u ∈ st.users, u.ID ≠ p.UserID) →
      insertPostsRows ps st = .error .foreignKeyViolation := by
  intro ps
  induction ps with
  | nil => intro st hp; cases hp
  | cons q qs ih =>
      intro st hp hd
      by_cases hc : st.users.any (fun u => decide (u.ID = q.UserID)) = true
      · rcases List.mem_cons.mp hp with rfl | hpq
        · obtain ⟨u, hu, huq⟩ := List.any_eq_true.mp hc
          exact absurd (of_decide_eq_true huq) (hd u hu)
        · have hstep : insertPostsRows (q :: qs) st = insertPostsRows qs (addPost st q) := by
            simp [insertPostsRows, hc]
          rw [hstep]
          exact ih (addPost st q) hpq (by simpa [addPost] using hd)
      · simp [insertPostsRows, hc]

/-- C5: a batched posts insert containing a post whose owning-user identity
references no existing user fails with the foreign-key violation, and zero
rows of that batch are applied: the posts table observable after the failed
statement is unchanged. -/
theorem c5_dangling_post_batch (st : DBState) (ps : List Post) (p : Post)
    (hp : p ∈ ps) (hd : ∀ u ∈ st.users, u.ID ≠ p.UserID) :
    insertPostsModel ps st = .error .foreignKeyViolation ∧
      (execResultState st (insertPostsModel ps st)).posts = st.posts := by
  have h := insertPostsRows_dangling p ps st hp hd
  exact ⟨by simp [insertPostsModel, h], by simp [insertPostsModel, h, execResultState]⟩

/-- C5 witness: inserting a post owned by the nonexistent user 99 into the
demonstration store fails and leaves the posts table unchanged. -/
theorem c5_dangling_post_batch_witness :
    insertPostsModel [⟨0, 99, "orphan"⟩] demoDB = .error .foreignKeyViolation ∧
      (execResultState demoDB (insertPostsModel [⟨0, 99, "orphan"⟩] demoDB)).posts =
        demoDB.posts :=
  c5_dangling_post_batch demoDB [⟨0, 99, "orphan"⟩] ⟨0, 99, "orphan"⟩
    (by decide) (by decide)

/-- C6: the inner-join mapping on the demonstration store yields exactly the
three (User, Post) pairs — Charlie (identity 3, no posts) contributes none —
and in each pair the `User` component is a row of the users table, the `Post`
component a row of the posts table, joined on `users.id = posts.user_id`. -/
theorem c6_joinquery_demo :
    JoinQuery specEnv demoDB =
      .ok [(⟨1, "Alice"⟩, ⟨1, 1, "Hello, Alice"⟩),
        (⟨1, "Alice"⟩, ⟨2, 1, "Nice to meet you"⟩),
        (⟨2, "Bob"⟩, ⟨3, 2, "Hello, Bob"⟩)] ∧
    (innerJoin demoDB.users demoDB.posts).length = 3 ∧
    (∀ pr ∈ innerJoin demoDB.users demoDB.posts, pr.1.ID ≠ 3) ∧
    (∀ pr ∈ innerJoin demoDB.users demoDB.posts,
      pr.1 ∈ demoDB.users ∧ pr.2 ∈ demoDB.posts ∧ pr.2.UserID = pr.1.ID) := by
  refine ⟨rfl, rfl, ?_, ?_⟩ <;> decide

/-- C7: the select-by-identity-set operation with set {1, 2} on the
demonstration store returns exactly Alice then Bob, in that order. -/
theorem c7_inquery_demo :
    InQuery specEnv demoDB = .ok [⟨1, "Alice"⟩, ⟨2, "Bob"⟩] := rfl

/-- C8: `BulkInsert` applies the whole users batch first and then the whole
posts batch (the posts statement runs on the state left by the users
statement, and its referential check succeeds only because the three user
rows already exist); the reported rows-affected counts equal the batch sizes
N = 3 and M = 3, and exactly 3 users and 3 posts are retrievable afterward. -/
theorem c8_bulkinsert_demo :
    BulkInsert specEnv emptyDB = .ok (demoDB, bulkUsers.length, bulkPosts.length) ∧
    (selectUsersModel demoDB).length = bulkUsers.length ∧
    demoDB.posts.length = bulkPosts.length ∧
    bulkUsers.length = 3 ∧ bulkPosts.length = 3 :=
  ⟨rfl, rfl, rfl, rfl, rfl⟩
